import Mathlib

/-!
Shallow embedding of the retrieval core of the chatbot repository
(`train_data.py`, `agent_tools.py`, `agentic_bot.py`).

Modelling conventions:
* Python floats are modelled as real numbers (`ℝ`); `x ** 0.5` on a
  non-negative sum of squares is `Real.sqrt`.
* Python `dict` metadata values are modelled as association lists
  `List (String × String)`; the empty dict `{}` is `[]`.
* Exceptions raised by the external embedding provider are modelled with
  `Except String`; a `.error` value is a raised exception reaching the
  caller, `.ok` a normal return.
* The text splitter (`RecursiveCharacterTextSplitter`) and the Ollama
  embedding client are external collaborators; they enter every definition
  as explicit function parameters (`split`, `embedDocuments`, `embedQuery`).
* `pickle` persistence of one store is modelled by an `Option SavedData`
  slot (`none` = no file on disk); the pickled dict round-trips its three
  fields exactly.
-/

namespace ChatbotVS

/-- An embedding vector (Python `List[float]`). -/
abbrev Vec := List ℝ

/-- A metadata mapping (Python `dict`); `[]` models the empty dict `{}`. -/
abbrev Meta := List (String × String)

/-- The in-memory state of `VectorStoreManager`: the three parallel lists
`documents`, `doc_embeddings`, `metadatas` (train_data.py lines 25-27). -/
structure Store where
  documents : List String
  doc_embeddings : List Vec
  metadatas : List Meta

/-- The pickled record written by `_save_data` (train_data.py lines 37-41):
a dict with keys `documents`, `embeddings`, `metadatas`. -/
structure SavedData where
  documents : List String
  embeddings : List Vec
  metadatas : List Meta

/-- The fresh empty store set up in `__init__` (train_data.py lines 25-27). -/
def emptyStore : Store := ⟨[], [], []⟩

/-- Method `_save_data` (train_data.py lines 35-43): snapshot the three lists. -/
def saveData (s : Store) : SavedData :=
  ⟨s.documents, s.doc_embeddings, s.metadatas⟩

/-- Constructor `__init__` followed by `_load_data` (train_data.py lines 17-33, 45-56):
start from the empty lists; when a snapshot file exists, replace all three
fields from it. -/
def loadStore (disk : Option SavedData) : Store :=
  match disk with
  | none => emptyStore
  | some d => ⟨d.documents, d.embeddings, d.metadatas⟩

/-- A manager together with the snapshot slot of its persist directory. -/
structure VSState where
  store : Store
  disk : Option SavedData

/-- A fresh `VectorStoreManager(persist_directory=...)` over a directory whose
snapshot slot holds `disk`: `__init__` loads but never writes. -/
def initState (disk : Option SavedData) : VSState :=
  ⟨loadStore disk, disk⟩

/-- The dot product `sum(x * y for x, y in zip(a, b))` (train_data.py line 60).
Python `zip` truncates to the shorter list, exactly as `List.zip` does. -/
def dotProduct (a b : Vec) : ℝ :=
  ((a.zip b).map (fun p => p.1 * p.2)).sum

/-- Magnitude `sum(x * x for x in a) ** 0.5` (train_data.py lines 61-62). -/
noncomputable def magnitude (a : Vec) : ℝ :=
  Real.sqrt ((a.map (fun x => x * x)).sum)

/-- Method `_cosine_similarity` (train_data.py lines 58-65). -/
noncomputable def cosineSimilarity (a b : Vec) : ℝ :=
  if magnitude a = 0 ∨ magnitude b = 0 then 0
  else dotProduct a b / (magnitude a * magnitude b)

/-- The sum of squares of a vector is non-negative. -/
theorem sumSquares_nonneg (a : Vec) : 0 ≤ (a.map (fun x => x * x)).sum := by
  induction a with
  | nil => simp
  | cons x xs ih =>
      simp only [List.map_cons, List.sum_cons]
      have hx : 0 ≤ x * x := mul_self_nonneg x
      linarith

/-- The expression `metadatas[idx] if metadatas and idx < len(metadatas) else {}`
(train_data.py line 75). `metadatas` is falsy when `None` or the empty list. -/
def getBaseMeta (metadatas : Option (List Meta)) (idx : ℕ) : Meta :=
  match metadatas with
  | none => []
  | some ms => if ms ≠ [] ∧ idx < ms.length then ms.getD idx [] else []

/-- The accumulation loop of `add_texts` (train_data.py lines 70-76): for each
input text, in order, extend `chunks` with its splits and `metas` with the
text's base metadata repeated once per split. `idx` is the running
`enumerate` index. -/
def buildChunksMetas (split : String → List String)
    (metadatas : Option (List Meta)) : ℕ → List String → List String × List Meta
  | _, [] => ([], [])
  | idx, t :: rest =>
      let tail := buildChunksMetas split metadatas (idx + 1) rest
      (split t ++ tail.1,
       List.replicate (split t).length (getBaseMeta metadatas idx) ++ tail.2)

/-- Method `add_texts` (train_data.py lines 67-95). Returns the raised-or-returned
outcome together with the state of the manager (in-memory lists and the
snapshot slot of its persist directory) after the call. On an embedding
exception the `except` clause re-raises (line 95); the three `extend` calls
and `_save_data` (lines 86-91) run only after `embed_documents` returned, so
the state on the error path is the unmodified input state. -/
def add_texts (split : String → List String)
    (embedDocuments : List String → Except String (List Vec))
    (st : VSState) (texts : List String) (metadatas : Option (List Meta)) :
    Except String Unit × VSState :=
  let cm := buildChunksMetas split metadatas 0 texts
  if cm.1 = [] then (.ok (), st)
  else
    match embedDocuments cm.1 with
    | .error e => (.error e, st)
    | .ok newEmbeddings =>
        let store' : Store :=
          { documents := st.store.documents ++ cm.1
            doc_embeddings := st.store.doc_embeddings ++ newEmbeddings
            metadatas := st.store.metadatas ++ cm.2 }
        (.ok (), ⟨store', some (saveData store')⟩)

/-- The parity invariant: the three parallel lists have equal length. -/
def parity (s : Store) : Prop :=
  s.documents.length = s.doc_embeddings.length ∧
  s.documents.length = s.metadatas.length

/-- The chunk and metadata accumulators of `add_texts` always have equal
length: each text contributes `len(splits)` entries to both. -/
theorem buildChunksMetas_length (split : String → List String)
    (metadatas : Option (List Meta)) :
    ∀ (idx : ℕ) (texts : List String),
      (buildChunksMetas split metadatas idx texts).1.length =
      (buildChunksMetas split metadatas idx texts).2.length := by
  intro idx texts
  induction texts generalizing idx with
  | nil => rfl
  | cons t rest ih =>
      simp [buildChunksMetas, ih]

/-- The chunks accumulated by `add_texts` are the concatenation of the splits
of the input texts, in input order. -/
theorem buildChunksMetas_fst (split : String → List String)
    (metadatas : Option (List Meta)) :
    ∀ (idx : ℕ) (texts : List String),
      (buildChunksMetas split metadatas idx texts).1 =
      (texts.map split).flatten := by
  intro idx texts
  induction texts generalizing idx with
  | nil => rfl
  | cons t rest ih =>
      simp [buildChunksMetas, ih]

/-- The metadata accumulated by `add_texts` is, text by text in input order,
the text's base metadata repeated once per chunk of that text. -/
theorem buildChunksMetas_snd (split : String → List String)
    (metadatas : Option (List Meta)) :
    ∀ (idx : ℕ) (texts : List String),
      (buildChunksMetas split metadatas idx texts).2 =
      ((texts.enumFrom idx).map
        (fun it => List.replicate (split it.2).length
          (getBaseMeta metadatas it.1))).flatten := by
  intro idx texts
  induction texts generalizing idx with
  | nil => rfl
  | cons t rest ih =>
      simp [buildChunksMetas, List.enumFrom, ih]

/-- C1. Parity invariant and atomic failure of `add_texts`: assuming the
embedding gateway contract (a successful `embed_documents` returns one vector
per input chunk), any call on a state satisfying the parity invariant yields
a state satisfying it again, and whenever the call raises, the in-memory
lists and the persisted snapshot are exactly as before the call. Applied
after each call of an arbitrary sequence this settles the claim. -/
theorem add_texts_parity_and_atomic_failure
    (split : String → List String)
    (embedDocuments : List String → Except String (List Vec))
    (hgw : ∀ ts vs, embedDocuments ts = .ok vs → vs.length = ts.length)
    (st : VSState) (texts : List String) (metadatas : Option (List Meta))
    (hpar : parity st.store) :
    parity (add_texts split embedDocuments st texts metadatas).2.store ∧
    (∀ e, (add_texts split embedDocuments st texts metadatas).1 = .error e →
      (add_texts split embedDocuments st texts metadatas).2 = st) := by
  obtain ⟨h1, h2⟩ := hpar
  unfold add_texts
  by_cases hnil : (buildChunksMetas split metadatas 0 texts).1 = []
  · simp only [hnil, if_pos rfl]
    exact ⟨⟨h1, h2⟩, fun e he => by cases he⟩
  · simp only [if_neg hnil]
    cases hemb : embedDocuments (buildChunksMetas split metadatas 0 texts).1 with
    | error e =>
        exact ⟨⟨h1, h2⟩, fun e' he' => rfl⟩
    | ok vs =>
        refine ⟨⟨?_, ?_⟩, fun e' he' => by cases he'⟩
        · simp [List.length_append, h1, hgw _ _ hemb]
        · simp [List.length_append, h2, buildChunksMetas_length]

/-- Witness for C1 at a concrete call: one text, identity-like splitter, a
gateway returning one vector per chunk, starting from a fresh empty manager. -/
theorem add_texts_parity_and_atomic_failure_witness :
    parity (add_texts (fun t => [t])
      (fun ts => .ok (ts.map (fun _ => [(1 : ℝ)])))
      (initState none) ["hello"] none).2.store :=
  (add_texts_parity_and_atomic_failure (fun t => [t])
    (fun ts => .ok (ts.map (fun _ => [(1 : ℝ)])))
    (fun ts vs h => by injection h with h'; subst h'; simp)
    (initState none) ["hello"] none
    ⟨rfl, rfl⟩).1

/-- C7. Order preservation and metadata broadcast: when the gateway call
succeeds, the documents appended by `add_texts` are exactly the splits of the
input texts concatenated in input order (so all chunks of an earlier text
precede all chunks of a later one), and the metadata appended consists, for
the text at input position `i`, of that text's own metadata repeated once per
chunk of the text. -/
theorem add_texts_order_and_broadcast
    (split : String → List String)
    (embedDocuments : List String → Except String (List Vec))
    (st : VSState) (texts : List String) (metadatas : Option (List Meta))
    (embs : List Vec)
    (hok : embedDocuments (buildChunksMetas split metadatas 0 texts).1 = .ok embs) :
    (add_texts split embedDocuments st texts metadatas).2.store.documents =
      st.store.documents ++ (texts.map split).flatten ∧
    (add_texts split embedDocuments st texts metadatas).2.store.metadatas =
      st.store.metadatas ++
        (texts.enum.map
          (fun it => List.replicate (split it.2).length
            (getBaseMeta metadatas it.1))).flatten := by
  have hfst := buildChunksMetas_fst split metadatas 0 texts
  have hsnd := buildChunksMetas_snd split metadatas 0 texts
  unfold add_texts
  by_cases hnil : (buildChunksMetas split metadatas 0 texts).1 = []
  · have hflat : (texts.map split).flatten = [] := by rw [← hfst]; exact hnil
    have hsplits : ∀ l ∈ texts.map split, l = [] :=
      List.flatten_eq_nil_iff.mp hflat
    have hmeta : (buildChunksMetas split metadatas 0 texts).2 = [] := by
      rw [hsnd, List.flatten_eq_nil_iff]
      intro l hl
      obtain ⟨it, hit, hrepl⟩ := List.mem_map.mp hl
      have hsplit : split it.2 = [] := by
        apply hsplits
        exact List.mem_map_of_mem split (by
          have := List.enumFrom_map_snd 0 texts
          exact this ▸ List.mem_map_of_mem Prod.snd hit)
      rw [← hrepl, hsplit]
      rfl
    have hmeta2 : (texts.enum.map
        (fun it => List.replicate (split it.2).length
          (getBaseMeta metadatas it.1))).flatten = [] := by
      simp only [List.enum]
      rw [← hsnd]
      exact hmeta
    simp only [hnil, if_pos rfl]
    rw [hflat, hmeta2]
    exact ⟨(List.append_nil _).symm, (List.append_nil _).symm⟩
  · simp only [if_neg hnil, hok]
    exact ⟨by rw [hfst], by rw [hsnd]; rfl⟩

/-- Witness for C7: two texts each split into one chunk, with two distinct
metadata entries; the appended documents and metadata follow input order. -/
theorem add_texts_order_and_broadcast_witness :
    (add_texts (fun t => [t]) (fun ts => .ok (ts.map (fun _ => [(1 : ℝ)])))
      (initState none) ["a", "b"]
      (some [[("source", "s1")], [("source", "s2")]])).2.store.documents =
      (initState none).store.documents ++ ((["a", "b"].map (fun t => [t])).flatten) :=
  (add_texts_order_and_broadcast (fun t => [t])
    (fun ts => .ok (ts.map (fun _ => [(1 : ℝ)])))
    (initState none) ["a", "b"]
    (some [[("source", "s1")], [("source", "s2")]])
    [[(1 : ℝ)], [(1 : ℝ)]] rfl).1

/-- C10. Calling `add_texts` with `metadatas=None`, or with a metadata list
shorter than the text list, still succeeds when the gateway call does: the
guarded expression on line 75 never indexes out of range, the source text at
any position not covered by the metadata list gets the empty mapping as base
metadata, and every chunk is stored with its text's base metadata. -/
theorem add_texts_missing_metadata_defaults
    (split : String → List String)
    (embedDocuments : List String → Except String (List Vec))
    (st : VSState) (texts : List String) (metadatas : Option (List Meta))
    (embs : List Vec)
    (hok : embedDocuments (buildChunksMetas split metadatas 0 texts).1 = .ok embs) :
    (add_texts split embedDocuments st texts metadatas).1 = .ok () ∧
    (∀ idx, getBaseMeta none idx = []) ∧
    (∀ ms idx, ms.length ≤ idx → getBaseMeta (some ms) idx = []) ∧
    (add_texts split embedDocuments st texts metadatas).2.store.metadatas =
      st.store.metadatas ++ (buildChunksMetas split metadatas 0 texts).2 := by
  refine ⟨?_, fun idx => rfl, ?_, ?_⟩
  · unfold add_texts
    by_cases hnil : (buildChunksMetas split metadatas 0 texts).1 = []
    · rw [if_pos hnil]
    · rw [if_neg hnil, hok]
  · intro ms idx h
    simp only [getBaseMeta]
    rw [if_neg]
    rintro ⟨_, hlt⟩
    omega
  · unfold add_texts
    by_cases hnil : (buildChunksMetas split metadatas 0 texts).1 = []
    · have hlen := buildChunksMetas_length split metadatas 0 texts
      rw [hnil] at hlen
      have h2 : (buildChunksMetas split metadatas 0 texts).2 = [] :=
        List.eq_nil_of_length_eq_zero hlen.symm
      rw [if_pos hnil, h2, List.append_nil]
    · rw [if_neg hnil, hok]

/-- Witness for C10: two texts but only one metadata entry; the call succeeds
and the uncovered second text falls back to the empty mapping. -/
theorem add_texts_missing_metadata_defaults_witness :
    (add_texts (fun t => [t]) (fun ts => .ok (ts.map (fun _ => [(1 : ℝ)])))
      (initState none) ["a", "b"] (some [[("source", "s1")]])).1 = .ok () :=
  (add_texts_missing_metadata_defaults (fun t => [t])
    (fun ts => .ok (ts.map (fun _ => [(1 : ℝ)])))
    (initState none) ["a", "b"] (some [[("source", "s1")]])
    [[(1 : ℝ)], [(1 : ℝ)]] rfl).1

/-- Counterexample to C5 as stated: the store has established dimensionality 2
(one stored embedding `[1, 2]`), the gateway returns the 1-dimensional vector
`[5]` for the new chunk, yet `add_texts` returns normally and appends the
mismatched embedding, rewriting the snapshot — it neither fails nor leaves
the store unchanged. -/
theorem add_texts_dimension_mismatch_counterexample :
    add_texts (fun t => [t]) (fun _ => .ok [[(5 : ℝ)]])
      ⟨⟨["d0"], [[(1 : ℝ), 2]], [[]]⟩, some ⟨["d0"], [[(1 : ℝ), 2]], [[]]⟩⟩
      ["x"] none
      = (.ok (), ⟨⟨["d0", "x"], [[(1 : ℝ), 2], [(5 : ℝ)]], [[], []]⟩,
          some ⟨["d0", "x"], [[(1 : ℝ), 2], [(5 : ℝ)]], [[], []]⟩⟩) := by
  simp [add_texts, buildChunksMetas, getBaseMeta, saveData]

/-- C5 amended: `add_texts` performs no dimensionality check at all. Whenever
the gateway call succeeds on a non-empty chunk list, the write succeeds and
the returned vectors are appended verbatim, whatever their lengths relative
to the embeddings already in the store. -/
theorem add_texts_no_dimension_check
    (split : String → List String)
    (embedDocuments : List String → Except String (List Vec))
    (st : VSState) (texts : List String) (metadatas : Option (List Meta))
    (embs : List Vec)
    (hok : embedDocuments (buildChunksMetas split metadatas 0 texts).1 = .ok embs)
    (hne : (buildChunksMetas split metadatas 0 texts).1 ≠ []) :
    (add_texts split embedDocuments st texts metadatas).1 = .ok () ∧
    (add_texts split embedDocuments st texts metadatas).2.store.doc_embeddings =
      st.store.doc_embeddings ++ embs := by
  unfold add_texts
  rw [if_neg hne, hok]
  exact ⟨rfl, rfl⟩

/-- Witness for the amended C5 at the counterexample input: a 1-dimensional
vector is appended to a store whose established dimensionality is 2. -/
theorem add_texts_no_dimension_check_witness :
    (add_texts (fun t => [t]) (fun _ => .ok [[(5 : ℝ)]])
      ⟨⟨["d0"], [[(1 : ℝ), 2]], [[]]⟩, some ⟨["d0"], [[(1 : ℝ), 2]], [[]]⟩⟩
      ["x"] none).2.store.doc_embeddings =
      [[(1 : ℝ), 2]] ++ [[(5 : ℝ)]] :=
  (add_texts_no_dimension_check (fun t => [t]) (fun _ => .ok [[(5 : ℝ)]])
    ⟨⟨["d0"], [[(1 : ℝ), 2]], [[]]⟩, some ⟨["d0"], [[(1 : ℝ), 2]], [[]]⟩⟩
    ["x"] none [[(5 : ℝ)]] rfl (by simp [buildChunksMetas])).2

/-- C9. `_cosine_similarity` returns `0` whenever either vector has zero
magnitude, and otherwise divides by the product of the two magnitudes, which
is then provably non-zero — so the division is never a division by zero and,
in this real-valued model of the float arithmetic, the result is always a
well-defined finite real (no NaN, no exception). -/
theorem cosineSimilarity_zero_magnitude_safe (a b : Vec) :
    ((magnitude a = 0 ∨ magnitude b = 0) → cosineSimilarity a b = 0) ∧
    (magnitude a ≠ 0 → magnitude b ≠ 0 →
      magnitude a * magnitude b ≠ 0 ∧
      cosineSimilarity a b = dotProduct a b / (magnitude a * magnitude b)) := by
  constructor
  · intro h
    unfold cosineSimilarity
    rw [if_pos h]
  · intro ha hb
    refine ⟨mul_ne_zero ha hb, ?_⟩
    unfold cosineSimilarity
    rw [if_neg]
    rintro (h | h)
    · exact ha h
    · exact hb h

/-- Witness for C9: the zero vector `[0]` has zero magnitude, so its cosine
similarity against `[1]` is `0`. -/
theorem cosineSimilarity_zero_magnitude_safe_witness :
    cosineSimilarity [(0 : ℝ)] [(1 : ℝ)] = 0 :=
  (cosineSimilarity_zero_magnitude_safe [(0 : ℝ)] [(1 : ℝ)]).1
    (Or.inl (by simp [magnitude]))

/-- A search result dict (train_data.py lines 119-122). -/
structure SearchResult where
  page_content : String
  metadata : Meta
deriving DecidableEq

/-- The order in which `similarities.sort(reverse=True)` (train_data.py
line 113) arranges the `(similarity, index)` tuples: descending
lexicographic comparison, so `p` comes weakly before `q` when `p`'s
similarity is larger, or the similarities are equal and `p`'s index is at
least `q`'s. -/
def pyDescPairLe (p q : ℝ × ℕ) : Prop :=
  q.1 < p.1 ∨ (p.1 = q.1 ∧ q.2 ≤ p.2)

noncomputable instance : DecidableRel pyDescPairLe := fun p q => by
  unfold pyDescPairLe
  infer_instance

instance : IsTotal (ℝ × ℕ) pyDescPairLe :=
  ⟨fun p q => by
    unfold pyDescPairLe
    rcases lt_trichotomy p.1 q.1 with h | h | h
    · exact Or.inr (Or.inl h)
    · rcases le_total p.2 q.2 with h2 | h2
      · exact Or.inr (Or.inr ⟨h.symm, h2⟩)
      · exact Or.inl (Or.inr ⟨h, h2⟩)
    · exact Or.inl (Or.inl h)⟩

instance : IsTrans (ℝ × ℕ) pyDescPairLe :=
  ⟨fun p q r hpq hqr => by
    unfold pyDescPairLe at hpq hqr ⊢
    rcases hpq with h1 | ⟨e1, l1⟩ <;> rcases hqr with h2 | ⟨e2, l2⟩
    · exact Or.inl (h2.trans h1)
    · exact Or.inl (by rw [← e2]; exact h1)
    · exact Or.inl (by rw [e1]; exact h2)
    · exact Or.inr ⟨e1.trans e2, l2.trans l1⟩⟩

instance : IsAntisymm (ℝ × ℕ) pyDescPairLe :=
  ⟨fun p q hpq hqp => by
    unfold pyDescPairLe at hpq hqp
    rcases hpq with h1 | ⟨e1, l1⟩ <;> rcases hqp with h2 | ⟨e2, l2⟩
    · exact absurd (h1.trans h2) (lt_irrefl _)
    · exact absurd h1 (by rw [e2]; exact lt_irrefl _)
    · exact absurd h2 (by rw [e1]; exact lt_irrefl _)
    · exact Prod.ext e1 (le_antisymm l2 l1)⟩

/-- The `similarities` list built by the scan loop (train_data.py
lines 107-110): one `(similarity, index)` pair per stored embedding, with
`enumerate` indices, the query embedding as first cosine argument. -/
noncomputable def similarityPairs (queryEmbedding : Vec) (s : Store) :
    List (ℝ × ℕ) :=
  s.doc_embeddings.enum.map
    (fun ie => (cosineSimilarity queryEmbedding ie.2, ie.1))

/-- The result of `similarities.sort(reverse=True)` (train_data.py
line 113). CPython sorts the tuples into descending lexicographic order;
because the `enumerate` indices are pairwise distinct, no two tuples
compare equal, so the sorted arrangement is unique and every correct
sorting algorithm (in particular CPython's stable sort with
`reverse=True`) produces exactly the `pyDescPairLe`-sorted permutation
computed here by insertion sort. -/
noncomputable def rankedSimilarities (queryEmbedding : Vec) (s : Store) :
    List (ℝ × ℕ) :=
  List.insertionSort pyDescPairLe (similarityPairs queryEmbedding s)

/-- Method `similarity_search` (train_data.py lines 97-128). The empty-store test
`if not self.documents` short-circuits before anything else; an exception
from `embed_query` is caught by the `except` clause (lines 126-128), which
returns `[]`. Result rows read `self.documents[idx]` and the guarded
`self.metadatas[idx] if idx < len(self.metadatas) else {}` (lines 118-122);
`List.getD` stands in for the indexing, whose index is always in range for
`doc_embeddings` by construction and for `documents` whenever the parity
invariant holds (out-of-range indexing would raise and be caught by the
same `except` clause, a corner unreachable in the claims below, which all
assume stores built by `add_texts`). -/
noncomputable def similarity_search (embedQuery : String → Except String Vec)
    (s : Store) (query : String) (k : ℕ) : List SearchResult :=
  if s.documents = [] then []
  else
    match embedQuery query with
    | .error _ => []
    | .ok qe =>
        ((rankedSimilarities qe s).take k).map
          (fun si =>
            { page_content := s.documents.getD si.2 ""
              metadata :=
                if si.2 < s.metadatas.length then s.metadatas.getD si.2 []
                else [] })

/-- The queries `similarity_search` sends to the embedding gateway: the
single `embed_query` call on line 104 runs exactly when the empty-store
guard on line 99 is passed. -/
def similaritySearchGatewayCalls (s : Store) (query : String) : List String :=
  if s.documents = [] then [] else [query]

/-- C8. Empty-store short-circuit: on a store with no documents,
`similarity_search` returns `[]` for every query, every `k` and every
gateway, and issues no gateway call at all. -/
theorem similarity_search_empty_store_short_circuit
    (s : Store) (q : String) (k : ℕ) (h : s.documents = []) :
    (∀ embedQuery : String → Except String Vec,
      similarity_search embedQuery s q k = []) ∧
    similaritySearchGatewayCalls s q = [] := by
  constructor
  · intro embedQuery
    unfold similarity_search
    rw [if_pos h]
  · unfold similaritySearchGatewayCalls
    rw [if_pos h]

/-- Witness for C8: the fresh empty store, searched with a gateway that
would fail if it were ever consulted, yields `[]`. -/
theorem similarity_search_empty_store_short_circuit_witness :
    similarity_search (fun _ => .error "unreachable") emptyStore "q" 4 = [] :=
  (similarity_search_empty_store_short_circuit emptyStore "q" 4 rfl).1
    (fun _ => .error "unreachable")

/-- Counterexample to C4 as stated: on a non-empty store, a gateway failure
(`embed_query` raising) does not propagate to the caller as an error — the
`except` clause swallows it and the call returns the plain empty result
list, indistinguishable from a query that matched nothing. -/
theorem similarity_search_error_swallowed_counterexample :
    similarity_search (fun _ => .error "provider unreachable")
      ⟨["doc"], [[(1 : ℝ)]], [[]]⟩ "q" 4 = [] := by
  unfold similarity_search
  rw [if_neg (by simp)]

/-- C4 amended: whenever the embedding gateway fails during a
`similarity_search` on a non-empty store, the exception is caught inside
the method and the call returns the empty list — a silent default rather
than a structured error surfaced to the caller. -/
theorem similarity_search_error_returns_empty
    (embedQuery : String → Except String Vec) (s : Store) (q : String)
    (k : ℕ) (e : String)
    (hne : s.documents ≠ []) (herr : embedQuery q = .error e) :
    similarity_search embedQuery s q k = [] := by
  unfold similarity_search
  rw [if_neg hne, herr]

/-- Witness for the amended C4: a two-document store with a timed-out
gateway yields `[]`. -/
theorem similarity_search_error_returns_empty_witness :
    similarity_search (fun _ => .error "timeout")
      ⟨["a", "b"], [[(1 : ℝ)], [(2 : ℝ)]], [[], []]⟩ "query" 2 = [] :=
  similarity_search_error_returns_empty (fun _ => .error "timeout")
    ⟨["a", "b"], [[(1 : ℝ)], [(2 : ℝ)]], [[], []]⟩ "query" 2 "timeout"
    (by simp) rfl

/-- Evaluation of the ranked similarity list on a two-document store whose
embeddings both score `0` against the query embedding `[1]` (zero vectors
have zero magnitude): the tuple with the larger index sorts first. -/
theorem rankedSimilarities_tie_eval :
    rankedSimilarities [(1 : ℝ)] ⟨["a", "b"], [[(0 : ℝ)], [(0 : ℝ)]], [[], []]⟩
      = [((0 : ℝ), 1), ((0 : ℝ), 0)] := by
  have hmag : magnitude [(0 : ℝ)] = 0 := by simp [magnitude]
  have hc : cosineSimilarity [(1 : ℝ)] [(0 : ℝ)] = 0 := by
    unfold cosineSimilarity
    rw [if_pos (Or.inr hmag)]
  have hnotle : ¬ pyDescPairLe ((0 : ℝ), 0) ((0 : ℝ), 1) := by
    unfold pyDescPairLe
    rintro (h | ⟨-, h⟩)
    · exact absurd h (lt_irrefl _)
    · omega
  unfold rankedSimilarities similarityPairs
  simp only [List.enum, List.enumFrom, List.map, hc]
  simp only [List.insertionSort, List.orderedInsert_nil]
  rw [List.orderedInsert, if_neg hnotle, List.orderedInsert_nil]

/-- Counterexample to C3 as stated: both stored documents have the same
similarity (`0`) to the query, yet the search ranks the later-inserted
document "b" before the earlier-inserted "a" — `sort(reverse=True)` on
`(similarity, index)` tuples breaks ties by larger index first, not by
earlier insertion order. -/
theorem similarity_search_tie_counterexample :
    similarity_search (fun _ => .ok [(1 : ℝ)])
      ⟨["a", "b"], [[(0 : ℝ)], [(0 : ℝ)]], [[], []]⟩ "q" 2
      = [⟨"b", []⟩, ⟨"a", []⟩] := by
  unfold similarity_search
  rw [if_neg (by simp)]
  simp only [rankedSimilarities_tie_eval]
  rfl

/-- Evaluation of the ranked similarity list on a two-document store with
distinct similarities: the query embedding `[1]` scores `1` against the
stored embedding `[2]` (cosine of parallel vectors) and `0` against the
zero vector, so the later-inserted but higher-scoring document sorts
first. -/
theorem rankedSimilarities_desc_eval :
    rankedSimilarities [(1 : ℝ)] ⟨["x", "y"], [[(0 : ℝ)], [(2 : ℝ)]], [[], []]⟩
      = [((1 : ℝ), 1), ((0 : ℝ), 0)] := by
  have hmag0 : magnitude [(0 : ℝ)] = 0 := by simp [magnitude]
  have hc0 : cosineSimilarity [(1 : ℝ)] [(0 : ℝ)] = 0 := by
    unfold cosineSimilarity
    rw [if_pos (Or.inr hmag0)]
  have hmag1 : magnitude [(1 : ℝ)] = 1 := by simp [magnitude]
  have hmag2 : magnitude [(2 : ℝ)] = 2 := by
    have h4 : ((([(2 : ℝ)]).map (fun x => x * x)).sum) = 4 := by norm_num
    unfold magnitude
    rw [h4, show (4 : ℝ) = 2 ^ 2 by norm_num,
      Real.sqrt_sq (by norm_num : (0 : ℝ) ≤ 2)]
  have hc1 : cosineSimilarity [(1 : ℝ)] [(2 : ℝ)] = 1 := by
    unfold cosineSimilarity
    rw [if_neg]
    · have hdot : dotProduct [(1 : ℝ)] [(2 : ℝ)] = 2 := by
        simp [dotProduct]
      rw [hdot, hmag1, hmag2]
      norm_num
    · rintro (h | h)
      · rw [hmag1] at h
        norm_num at h
      · rw [hmag2] at h
        norm_num at h
  have hnotle : ¬ pyDescPairLe ((0 : ℝ), 0) ((1 : ℝ), 1) := by
    unfold pyDescPairLe
    rintro (h | ⟨h, -⟩)
    · norm_num at h
    · norm_num at h
  unfold rankedSimilarities similarityPairs
  simp only [List.enum, List.enumFrom, List.map, hc0, hc1]
  simp only [List.insertionSort, List.orderedInsert_nil]
  rw [List.orderedInsert, if_neg hnotle, List.orderedInsert_nil]

/-- C3 amended: the ranked list is ordered by cosine similarity descending —
whenever the tuple `a` precedes the tuple `b` anywhere in it, `b`'s
similarity is at most `a`'s — and for two entries with equal similarity the
one inserted LATER is ranked first: `a` then carries the strictly larger
insertion index. -/
theorem rankedSimilarities_desc_and_ties_later_first
    (qe : Vec) (s : Store) (pre mid post : List (ℝ × ℕ)) (a b : ℝ × ℕ)
    (hdec : rankedSimilarities qe s = pre ++ a :: (mid ++ b :: post)) :
    b.1 ≤ a.1 ∧ (a.1 = b.1 → b.2 < a.2) := by
  have hsorted : List.Sorted pyDescPairLe (rankedSimilarities qe s) :=
    List.sorted_insertionSort pyDescPairLe _
  rw [hdec] at hsorted
  have h1 : [b].Sublist (mid ++ b :: post) :=
    List.singleton_sublist.mpr (List.mem_append_right mid (List.mem_cons_self b _))
  have h2 : [a, b].Sublist (a :: (mid ++ b :: post)) := h1.cons₂ a
  have h3 : (a :: (mid ++ b :: post)).Sublist (pre ++ a :: (mid ++ b :: post)) :=
    (List.suffix_append pre _).sublist
  have hpairwise : List.Pairwise pyDescPairLe [a, b] :=
    List.Pairwise.sublist (h2.trans h3) hsorted
  have hpair : pyDescPairLe a b :=
    (List.pairwise_cons.mp hpairwise).1 b (List.mem_cons_self b _)
  constructor
  · rcases hpair with hlt | ⟨e, -⟩
    · exact hlt.le
    · exact le_of_eq e.symm
  · intro heq
    have hperm : (rankedSimilarities qe s).Perm (similarityPairs qe s) :=
      List.perm_insertionSort pyDescPairLe _
    have hmapsnd : (similarityPairs qe s).map Prod.snd
        = List.range s.doc_embeddings.length := by
      unfold similarityPairs
      rw [List.map_map]
      have hcomp : (Prod.snd ∘ fun ie : ℕ × Vec =>
          (cosineSimilarity qe ie.2, ie.1)) = Prod.fst := rfl
      rw [hcomp, List.enum_map_fst]
    have hnodup : ((rankedSimilarities qe s).map Prod.snd).Nodup := by
      rw [(hperm.map Prod.snd).nodup_iff, hmapsnd]
      exact List.nodup_range _
    rw [hdec] at hnodup
    have hmap : (pre ++ a :: (mid ++ b :: post)).map Prod.snd
        = pre.map Prod.snd ++ a.2 :: (mid ++ b :: post).map Prod.snd := by
      simp
    rw [hmap] at hnodup
    have h5 := hnodup.of_append_right
    have h6 := (List.nodup_cons.mp h5).1
    have hbmem : b.2 ∈ (mid ++ b :: post).map Prod.snd :=
      List.mem_map_of_mem Prod.snd
        (List.mem_append_right mid (List.mem_cons_self b _))
    have hne : a.2 ≠ b.2 := fun h => h6 (h ▸ hbmem)
    rcases hpair with hlt | ⟨-, hle⟩
    · exact absurd hlt (by rw [heq]; exact lt_irrefl _)
    · exact lt_of_le_of_ne hle (fun h => hne h.symm)

/-- Witness for the amended C3 at two concrete stores: in the
distinct-similarity store the later-inserted higher-scoring entry ranks
first with similarity `1` over `0` (descending order), and in the tie store
the implication fires, forcing the later insertion index `1` ahead of
`0`. -/
theorem rankedSimilarities_desc_and_ties_later_first_witness :
    ((((0 : ℝ), 0) : ℝ × ℕ).1 ≤ (((1 : ℝ), 1) : ℝ × ℕ).1 ∧
      ((((1 : ℝ), 1) : ℝ × ℕ).1 = (((0 : ℝ), 0) : ℝ × ℕ).1 →
        (((0 : ℝ), 0) : ℝ × ℕ).2 < (((1 : ℝ), 1) : ℝ × ℕ).2)) ∧
    ((((0 : ℝ), 0) : ℝ × ℕ).1 ≤ (((0 : ℝ), 1) : ℝ × ℕ).1 ∧
      ((((0 : ℝ), 1) : ℝ × ℕ).1 = (((0 : ℝ), 0) : ℝ × ℕ).1 →
        (((0 : ℝ), 0) : ℝ × ℕ).2 < (((0 : ℝ), 1) : ℝ × ℕ).2)) :=
  ⟨rankedSimilarities_desc_and_ties_later_first [(1 : ℝ)]
      ⟨["x", "y"], [[(0 : ℝ)], [(2 : ℝ)]], [[], []]⟩ [] [] []
      ((1 : ℝ), 1) ((0 : ℝ), 0)
      (by rw [rankedSimilarities_desc_eval]; rfl),
   rankedSimilarities_desc_and_ties_later_first [(1 : ℝ)]
      ⟨["a", "b"], [[(0 : ℝ)], [(0 : ℝ)]], [[], []]⟩ [] [] []
      ((0 : ℝ), 1) ((0 : ℝ), 0)
      (by rw [rankedSimilarities_tie_eval]; rfl)⟩

/-- C6. Round-trip persistence: on any manager state whose snapshot slot
agrees with its in-memory lists (true of a fresh manager, since `__init__`
only loads), after an `add_texts` call — successful, failing, or a no-op —
reconstructing a fresh `VectorStoreManager` from the same persist directory
yields exactly the in-memory triple of sequences: a successful saving call
wrote `some (saveData store)` and `loadStore` inverts `saveData` field by
field, while a no-op or failing call left both sides untouched. -/
theorem add_texts_persistence_roundtrip
    (split : String → List String)
    (embedDocuments : List String → Except String (List Vec))
    (st : VSState) (texts : List String) (metadatas : Option (List Meta))
    (hinv : loadStore st.disk = st.store) :
    (initState (add_texts split embedDocuments st texts metadatas).2.disk).store
      = (add_texts split embedDocuments st texts metadatas).2.store := by
  unfold add_texts
  by_cases hnil : (buildChunksMetas split metadatas 0 texts).1 = []
  · rw [if_pos hnil]
    exact hinv
  · rw [if_neg hnil]
    cases hemb : embedDocuments (buildChunksMetas split metadatas 0 texts).1 with
    | error e => exact hinv
    | ok vs => rfl

/-- Witness for C6: a concrete successful call starting from a fresh empty
manager; reloading from the snapshot written by the call reproduces the
in-memory store. -/
theorem add_texts_persistence_roundtrip_witness :
    (initState (add_texts (fun t => [t])
        (fun ts => .ok (ts.map (fun _ => [(1 : ℝ)])))
        (initState none) ["hello"] none).2.disk).store
      = (add_texts (fun t => [t])
        (fun ts => .ok (ts.map (fun _ => [(1 : ℝ)])))
        (initState none) ["hello"] none).2.store :=
  add_texts_persistence_roundtrip (fun t => [t])
    (fun ts => .ok (ts.map (fun _ => [(1 : ℝ)])))
    (initState none) ["hello"] none rfl

/-- The slice of an agent record relevant to retrieval: the
`vector_store_path` key set by `train_agent_from_text` (agent_tools.py
line 228) and read by `answer_question` (agentic_bot.py line 60). The other
keys (name, greeting, timestamps, status) never influence which store is
read or written. -/
structure AgentRec where
  vector_store_path : Option String

/-- The state shared by the tools layer: the snapshot file of every persist
directory (`none` = no `vector_store.pkl` there), which directories exist
(`os.makedirs` / `os.path.exists`), and the agent records keyed by id. -/
structure SysState where
  disk : String → Option SavedData
  dirs : String → Bool
  agents : String → Option AgentRec

/-- Directory `os.path.join(self.vector_dir, f"agent_{agent_id}")` (agent_tools.py
line 212): the persist directory of one agent's namespace. -/
def agentVectorDir (vector_dir agent_id : String) : String :=
  vector_dir ++ "/agent_" ++ agent_id

/-- Method `train_agent_from_text` (agent_tools.py lines 205-236): unknown agent
ids fail fast; otherwise the agent-specific directory is created, a
dedicated `VectorStoreManager` over it is built (loading that directory's
snapshot), `add_texts([text_content], [{"source": source}])` runs against
it, and on success the agent record's `vector_store_path` is set to the
agent's own directory. An exception from `add_texts` is caught by the
`except` clause: no snapshot was written and the record is not updated. -/
def train_agent_from_text (split : String → List String)
    (embedDocuments : List String → Except String (List Vec))
    (vector_dir : String) (sys : SysState)
    (agent_id text_content source : String) : SysState × Bool :=
  match sys.agents agent_id with
  | none => (sys, false)
  | some _a =>
      let dir := agentVectorDir vector_dir agent_id
      let dirs1 : String → Bool := fun d => if d = dir then true else sys.dirs d
      let res := add_texts split embedDocuments
          ⟨loadStore (sys.disk dir), sys.disk dir⟩
          [text_content] (some [[("source", source)]])
      match res.1 with
      | .error _ => ({ sys with dirs := dirs1 }, false)
      | .ok _ =>
          ({ disk := fun d => if d = dir then res.2.disk else sys.disk d
             dirs := dirs1
             agents := fun i => if i = agent_id then
                 some ⟨some dir⟩ else sys.agents i },
           true)

/-- The retrieval step of `answer_question` for a caller-supplied agent id
(agentic_bot.py lines 50-70): unknown agent, missing `vector_store_path`,
or missing directory all short-circuit to no retrieved documents;
otherwise a fresh manager over the recorded path is built and
`similarity_search(question, k=5)` runs against that store. -/
noncomputable def retrieve_for_agent (embedQuery : String → Except String Vec)
    (sys : SysState) (agent_id question : String) : List SearchResult :=
  match sys.agents agent_id with
  | none => []
  | some a =>
      match a.vector_store_path with
      | none => []
      | some path =>
          if sys.dirs path then
            similarity_search embedQuery (loadStore (sys.disk path)) question 5
          else []

/-- Two distinct agent ids get distinct persist directories. -/
theorem agentVectorDir_injective (vector_dir : String) {a b : String}
    (h : agentVectorDir vector_dir a = agentVectorDir vector_dir b) :
    a = b := by
  have hd := congrArg String.data h
  simp only [agentVectorDir, String.data_append] at hd
  exact String.ext (List.append_cancel_left hd)

/-- No agent's persist directory coincides with the global one. -/
theorem agentVectorDir_ne_base (vector_dir a : String) :
    agentVectorDir vector_dir a ≠ vector_dir := by
  intro h
  have hl := congrArg String.length h
  simp only [agentVectorDir, String.length_append] at hl
  have h7 : ("/agent_" : String).length = 7 := by decide
  omega

/-- Training touches no agent record other than the trained one. -/
theorem train_agents_other (split : String → List String)
    (embedDocuments : List String → Except String (List Vec))
    (vector_dir : String) (sys : SysState)
    (agent_id text_content source : String) (i : String) (h : i ≠ agent_id) :
    (train_agent_from_text split embedDocuments vector_dir sys
      agent_id text_content source).1.agents i = sys.agents i := by
  unfold train_agent_from_text
  cases hA : sys.agents agent_id with
  | none => rfl
  | some r0 =>
      cases hr : (add_texts split embedDocuments
          ⟨loadStore (sys.disk (agentVectorDir vector_dir agent_id)),
            sys.disk (agentVectorDir vector_dir agent_id)⟩
          [text_content] (some [[("source", source)]])).1 with
      | error e => simp [hr]
      | ok u => simp [hr, h]

/-- Training touches no snapshot other than the trained agent's own. -/
theorem train_disk_other (split : String → List String)
    (embedDocuments : List String → Except String (List Vec))
    (vector_dir : String) (sys : SysState)
    (agent_id text_content source : String) (d : String)
    (h : d ≠ agentVectorDir vector_dir agent_id) :
    (train_agent_from_text split embedDocuments vector_dir sys
      agent_id text_content source).1.disk d = sys.disk d := by
  unfold train_agent_from_text
  cases hA : sys.agents agent_id with
  | none => rfl
  | some r0 =>
      cases hr : (add_texts split embedDocuments
          ⟨loadStore (sys.disk (agentVectorDir vector_dir agent_id)),
            sys.disk (agentVectorDir vector_dir agent_id)⟩
          [text_content] (some [[("source", source)]])).1 with
      | error e => simp [hr]
      | ok u => simp [hr, h]

/-- Training creates no directory other than the trained agent's own. -/
theorem train_dirs_other (split : String → List String)
    (embedDocuments : List String → Except String (List Vec))
    (vector_dir : String) (sys : SysState)
    (agent_id text_content source : String) (d : String)
    (h : d ≠ agentVectorDir vector_dir agent_id) :
    (train_agent_from_text split embedDocuments vector_dir sys
      agent_id text_content source).1.dirs d = sys.dirs d := by
  unfold train_agent_from_text
  cases hA : sys.agents agent_id with
  | none => rfl
  | some r0 =>
      cases hr : (add_texts split embedDocuments
          ⟨loadStore (sys.disk (agentVectorDir vector_dir agent_id)),
            sys.disk (agentVectorDir vector_dir agent_id)⟩
          [text_content] (some [[("source", source)]])).1 with
      | error e => simp [hr, h]
      | ok u => simp [hr, h]

/-- Retrieval for an agent depends only on that agent's record and, when the
record points at a path, on that path's directory bit and snapshot. -/
theorem retrieve_for_agent_congr (embedQuery : String → Except String Vec)
    (sys1 sys2 : SysState) (agent_id question : String)
    (hag : sys1.agents agent_id = sys2.agents agent_id)
    (hdirs : ∀ r0 p, sys2.agents agent_id = some r0 →
      r0.vector_store_path = some p → sys1.dirs p = sys2.dirs p)
    (hdisk : ∀ r0 p, sys2.agents agent_id = some r0 →
      r0.vector_store_path = some p → sys1.disk p = sys2.disk p) :
    retrieve_for_agent embedQuery sys1 agent_id question =
      retrieve_for_agent embedQuery sys2 agent_id question := by
  unfold retrieve_for_agent
  rw [hag]
  cases hA : sys2.agents agent_id with
  | none => rfl
  | some r0 =>
      cases hp : r0.vector_store_path with
      | none => simp only [hp]
      | some p =>
          simp only [hp]
          rw [hdirs r0 p hA hp, hdisk r0 p hA hp]

/-- C2. Namespace isolation: training agent `a` from text writes only the
snapshot of `a`'s own directory `vector_dir/agent_a`, so a retrieval run for
a distinct agent `b` (whose record, as maintained by the code itself, points
at `b`'s own directory or at none) returns exactly what it returned before
the training call, and the global namespace's snapshot at `vector_dir` is
untouched, so a search against the global store is also unchanged. -/
theorem namespace_isolation
    (split : String → List String)
    (embedDocuments : List String → Except String (List Vec))
    (embedQuery : String → Except String Vec)
    (vector_dir : String) (sys : SysState)
    (a b text_content source question gq : String) (k : ℕ)
    (hab : a ≠ b)
    (hbpath : ∀ r0, sys.agents b = some r0 →
      r0.vector_store_path = none ∨
      r0.vector_store_path = some (agentVectorDir vector_dir b)) :
    retrieve_for_agent embedQuery
        (train_agent_from_text split embedDocuments vector_dir sys
          a text_content source).1 b question =
      retrieve_for_agent embedQuery sys b question ∧
    (train_agent_from_text split embedDocuments vector_dir sys
        a text_content source).1.disk vector_dir = sys.disk vector_dir ∧
    similarity_search embedQuery
        (loadStore ((train_agent_from_text split embedDocuments vector_dir sys
          a text_content source).1.disk vector_dir)) gq k =
      similarity_search embedQuery (loadStore (sys.disk vector_dir)) gq k := by
  have hdiskG : (train_agent_from_text split embedDocuments vector_dir sys
      a text_content source).1.disk vector_dir = sys.disk vector_dir :=
    train_disk_other split embedDocuments vector_dir sys a text_content source
      vector_dir (Ne.symm (agentVectorDir_ne_base vector_dir a))
  refine ⟨?_, hdiskG, by rw [hdiskG]⟩
  apply retrieve_for_agent_congr
  · exact train_agents_other split embedDocuments vector_dir sys
      a text_content source b (Ne.symm hab)
  · intro r0 p hA hp
    apply train_dirs_other
    rcases hbpath r0 hA with hnone | hsome
    · rw [hnone] at hp
      cases hp
    · rw [hsome] at hp
      injection hp with hpe
      intro he
      exact hab ((agentVectorDir_injective vector_dir (hpe.trans he)).symm)
  · intro r0 p hA hp
    apply train_disk_other
    rcases hbpath r0 hA with hnone | hsome
    · rw [hnone] at hp
      cases hp
    · rw [hsome] at hp
      injection hp with hpe
      intro he
      exact hab ((agentVectorDir_injective vector_dir (hpe.trans he)).symm)

/-- Witness for C2: two registered untrained agents "A" and "B"; after
training "A", retrieval for "B" is unchanged. -/
theorem namespace_isolation_witness :
    retrieve_for_agent (fun _ => .error "down")
        (train_agent_from_text (fun t => [t])
          (fun ts => .ok (ts.map (fun _ => [(1 : ℝ)])))
          "vs"
          ⟨fun _ => none, fun _ => false,
            fun i => if i = "A" then some ⟨none⟩
              else if i = "B" then some ⟨none⟩ else none⟩
          "A" "text" "src").1 "B" "question" =
      retrieve_for_agent (fun _ => .error "down")
        ⟨fun _ => none, fun _ => false,
          fun i => if i = "A" then some ⟨none⟩
            else if i = "B" then some ⟨none⟩ else none⟩ "B" "question" :=
  (namespace_isolation (fun t => [t])
    (fun ts => .ok (ts.map (fun _ => [(1 : ℝ)]))) (fun _ => .error "down")
    "vs"
    ⟨fun _ => none, fun _ => false,
      fun i => if i = "A" then some ⟨none⟩
        else if i = "B" then some ⟨none⟩ else none⟩
    "A" "B" "text" "src" "question" "gq" 4
    (by decide)
    (by
      intro r0 h
      have h1 : (if ("B" : String) = "A" then some (⟨none⟩ : AgentRec)
          else if ("B" : String) = "B" then some ⟨none⟩ else none)
          = some r0 := h
      rw [if_neg (by decide), if_pos rfl] at h1
      injection h1 with h2
      rw [← h2]
      exact Or.inl rfl)).1

end ChatbotVS
